import Mathlib

set_option maxHeartbeats 1000000

/-- Characters of a Go string. The publisher manipulates strings only through
single-character splits (`strings.Split` with separators ";" and "=") and
concatenation, so a list of characters is a faithful representation. -/
abbrev Str : Type := List Char

/-- A field value stored in an event's data map (`map[string]interface{}` in
the source). Go `int64` is modelled as `Int` and `float64` as `Rat`; every
value the publisher compares, divides or copies is exactly representable. -/
inductive Value where
  | vStr : Str → Value
  | vInt : Int → Value
  | vFloat : Rat → Value
  | vBool : Bool → Value
deriving DecidableEq, Repr

/-- The event data map `ev.Data`, modelled as an association list carrying Go
map semantics through `dlookup` (read), `dset` (assign) and `derase`
(`delete`). -/
abbrev Data : Type := List (Str × Value)

/-- Map read: value of the first binding of the key, if any. -/
def dlookup : Data → Str → Option Value
  | [], _ => none
  | (k, v) :: rest, key => if k = key then some v else dlookup rest key

/-- Map assignment: replace the binding of the key in place, or append a new
binding when the key is absent. -/
def dset : Data → Str → Value → Data
  | [], key, v => [(key, v)]
  | (k, w) :: rest, key, v =>
      if k = key then (k, v) :: rest else (k, w) :: dset rest key v

/-- Map deletion (`delete(ev.Data, key)`): remove every binding of the key. -/
def derase : Data → Str → Data
  | [], _ => []
  | (k, v) :: rest, key =>
      if k = key then derase rest key else (k, v) :: derase rest key

/-- A parsed access-log event (`event.Event`): its timestamp, modelled as the
Unix-nanosecond instant `ev.Timestamp.UnixNano()`, and its data map. -/
structure Event where
  timestamp : Int
  data : Data
deriving DecidableEq, Repr

/-- Model of Go `strings.Split` for a one-character separator (the source
only ever splits on ";" and "="). -/
def splitChar (sep : Char) : List Char → List (List Char)
  | [] => [[]]
  | c :: cs =>
    match splitChar sep cs with
    | [] => [[c]]
    | g :: gs => if c = sep then [] :: g :: gs else (c :: g) :: gs

/-- The key under which sentinel cleanup records its explanation. -/
def kError : Str := "error".data

/-- The four recognized latency fields of `dropNegativeTimes`, in source
iteration order. -/
def timeFields : List Str :=
  ["response_processing_time".data, "request_processing_time".data,
   "backend_processing_time".data, "time_taken".data]

/-- The numeric reading `tFloat` produced by the type switch in
`dropNegativeTimes`: an `int64` is converted, a `float64` is taken as is,
and any other dynamic type leaves the zero value. -/
def tFloat : Value → Rat
  | .vInt n => (n : Rat)
  | .vFloat x => x
  | _ => 0

/-- Whether a (possibly absent) field value triggers sentinel cleanup:
present with a strictly negative numeric reading. -/
def negTime (o : Option Value) : Bool :=
  match o with
  | some v => decide (tFloat v < 0)
  | none => false

/-- The error message written by sentinel cleanup, naming the offending
field. -/
def errorMsg (f : Str) : Str :=
  f ++ " was -1 -- upstream server timed out, disconnected, or sent malformed response".data

/-- One iteration of the `dropNegativeTimes` loop body for field `f`. -/
def dropField (d : Data) (f : Str) : Data :=
  match dlookup d f with
  | some t =>
      if tFloat t < 0 then dset (derase d f) kError (.vStr (errorMsg f))
      else d
  | none => d

/-- `dropNegativeTimes` from the source: delete each recognized latency field
that is present with a negative numeric value and record an error message. -/
def dropNegativeTimes (d : Data) : Data :=
  List.foldl dropField d timeFields

/-- Last element of a list of strings, with the empty string as default. -/
def lastD : List Str → Str
  | [] => []
  | [f] => f
  | _ :: g :: fs => lastD (g :: fs)

/-- Key of the raw ALB access-log trace header field. -/
def kTraceId : Str := "trace_id".data

/-- Key written for the `Root` part of the trace header. -/
def kTraceTraceId : Str := "trace.trace_id".data

/-- Key written for the `Self` part of the trace header (or by root-span
self-assignment). -/
def kTraceSpanId : Str := "trace.span_id".data

/-- Key written for the `Parent` part of the trace header. -/
def kTraceParentId : Str := "trace.parent_id".data

/-- Key written for the `Sampled` part of the trace header. -/
def kSampled : Str := "sampled".data

/-- Key under which the raw trace header is preserved. -/
def kReqHeader : Str := "request.headers.x-amzn-trace-id".data

/-- Key of the derived duration field. -/
def kDurationMs : Str := "duration_ms".data

/-- Key of the derived service name field. -/
def kServiceName : Str := "service_name".data

/-- Key of the derived display name field. -/
def kName : Str := "name".data

/-- Key of the ALB response-time field read for duration derivation. -/
def kResponseTime : Str := "response_time".data

/-- Key of the request-processing-time field used as duration fallback. -/
def kReqProcTime : Str := "request_processing_time".data

/-- Key of the load-balancer name field. -/
def kElb : Str := "elb".data

/-- Key of the request-path field. -/
def kRequestPath : Str := "request_path".data

/-- One iteration of the `addTraceData` header loop: split the field on "=",
skip it unless that yields exactly two parts, then dispatch on the key. The
carried pair is the data map together with the `rootSpan` flag. -/
def processTraceField (edgeMode : Bool) (acc : Data × Bool) (field : Str) :
    Data × Bool :=
  match splitChar '=' field with
  | [key, val] =>
      if key = "Root".data then (dset acc.1 kTraceTraceId (.vStr val), acc.2)
      else if key = "Self".data then (dset acc.1 kTraceSpanId (.vStr val), false)
      else if key = "Parent".data then
        if edgeMode then acc
        else (dset acc.1 kTraceParentId (.vStr val), false)
      else if key = "Sampled".data then (dset acc.1 kSampled (.vStr val), acc.2)
      else (dset acc.1 key (.vStr val), acc.2)
  | _ => acc

/-- The dispatch of one header loop iteration on an already-split key/value
pair; `processTraceField` equals this whenever the split yields a pair. -/
def stepKV (edgeMode : Bool) (acc : Data × Bool) (kv : Str × Str) :
    Data × Bool :=
  if kv.1 = "Root".data then (dset acc.1 kTraceTraceId (.vStr kv.2), acc.2)
  else if kv.1 = "Self".data then (dset acc.1 kTraceSpanId (.vStr kv.2), false)
  else if kv.1 = "Parent".data then
    if edgeMode then acc
    else (dset acc.1 kTraceParentId (.vStr kv.2), false)
  else if kv.1 = "Sampled".data then (dset acc.1 kSampled (.vStr kv.2), acc.2)
  else (dset acc.1 kv.1 (.vStr kv.2), acc.2)

/-- The `addTraceData` header loop over the ";"-separated fields, starting
from the event data with `rootSpan = true`. -/
def traceLoop (edgeMode : Bool) (d : Data) (fields : List Str) : Data × Bool :=
  List.foldl (processTraceField edgeMode) (d, true) fields

/-- The key/value parts of one header field, when splitting on "=" yields
exactly two parts. -/
def pairOf (field : Str) : Option (Str × Str) :=
  match splitChar '=' field with
  | [k, v] => some (k, v)
  | _ => none

/-- The parsed keys of a field list (fields that do not split into exactly
two parts contribute nothing). -/
def parsedKeys : List Str → List Str
  | [] => []
  | f :: fs => ((pairOf f).elim [] (fun kv => [kv.1])) ++ parsedKeys fs

/-- The data-map keys one loop iteration with parsed key `k` may write. -/
def writeKeysOf (edgeMode : Bool) (k : Str) : List Str :=
  if k = "Root".data then [kTraceTraceId]
  else if k = "Self".data then [kTraceSpanId]
  else if k = "Parent".data then if edgeMode then [] else [kTraceParentId]
  else if k = "Sampled".data then [kSampled]
  else [k]

/-- All data-map keys the header loop may write for a given field list. -/
def loopWrittenKeys (edgeMode : Bool) : List Str → List Str
  | [] => []
  | f :: fs =>
      ((pairOf f).elim [] (fun kv => writeKeysOf edgeMode kv.1)) ++
        loopWrittenKeys edgeMode fs

/-- Whether a parsed key clears the `rootSpan` flag: `Self`, or `Parent`
while edge mode is off. -/
def clearsRootKV (edgeMode : Bool) (k : Str) : Bool :=
  if k = "Self".data then true
  else if k = "Parent".data then !edgeMode
  else false

/-- Whether one header field clears the `rootSpan` flag. -/
def clearsRoot (edgeMode : Bool) (f : Str) : Bool :=
  (pairOf f).elim false (fun kv => clearsRootKV edgeMode kv.1)

/-- The duration fallback `ev.Data["request_processing_time"].(float64)`:
the field's value when it is a float, and the zero value otherwise. -/
def reqProcFallback (d : Data) : Rat :=
  match dlookup d kReqProcTime with
  | some (.vFloat x) => x
  | _ => 0

/-- The duration derivation of `addTraceData`. `parseTime` stands for the Go
standard-library call `time.Parse(time.RFC3339Nano, endTime)` and returns
the parsed instant as Unix nanoseconds when parsing succeeds. The Go
expression `float64(duration / time.Millisecond)` is integer division of
nanoseconds by 10^6 converted to float. -/
def computeDurationMs (parseTime : Str → Option Int) (ts : Int) (d : Data) :
    Rat :=
  let fromResponse : Rat :=
    match dlookup d kResponseTime with
    | some (.vStr endTime) =>
        match parseTime endTime with
        | some tm => if tm - ts > 0 then (((tm - ts) / 1000000 : Int) : Rat) else 0
        | none => 0
    | _ => 0
  if fromResponse = 0 then reqProcFallback d else fromResponse

/-- Attach `duration_ms` when the derived duration is strictly positive. -/
def attachDurationMs (parseTime : Str → Option Int) (ts : Int) (d : Data) :
    Data :=
  if computeDurationMs parseTime ts d > 0 then
    dset d kDurationMs (.vFloat (computeDurationMs parseTime ts d))
  else d

/-- Derive `service_name` from the `elb` field when it is a string. -/
def attachServiceName (d : Data) : Data :=
  match dlookup d kElb with
  | some (.vStr elb) => dset d kServiceName (.vStr elb)
  | _ => d

/-- Derive the display `name` from the `request_path` field when it is a
string. -/
def attachName (d : Data) : Data :=
  match dlookup d kRequestPath with
  | some (.vStr rp) => dset d kName (.vStr rp)
  | _ => d

/-- Delete the raw `trace_id` field and preserve the raw header under the
namespaced request-header key. -/
def finalizeHeader (amznTraceID : Str) (d : Data) : Data :=
  dset (derase d kTraceId) kReqHeader (.vStr amznTraceID)

/-- The tail of `addTraceData` after the root-span fix, in source order:
attach `duration_ms` when positive, derive `service_name` and `name`,
delete the raw `trace_id` field and preserve the raw header. -/
def postProcess (parseTime : Str → Option Int) (ts : Int)
    (amznTraceID : Str) (d2 : Data) : Data :=
  finalizeHeader amznTraceID
    (attachName (attachServiceName (attachDurationMs parseTime ts d2)))

/-- The root-span self-assignment after the header loop: when the `rootSpan`
flag is still set, the source runs
`ev.Data["trace.span_id"] = ev.Data["trace.trace_id"].(string)`; the type
assertion has no ok-check, so the result is `none` (a panic) when that
entry is absent or not a string. -/
def rootSpanFix (lr : Data × Bool) : Option Data :=
  if lr.2 then
    match dlookup lr.1 kTraceTraceId with
    | some (.vStr tid) => some (dset lr.1 kTraceSpanId (.vStr tid))
    | _ => none
  else some lr.1

/-- `addTraceData` from the source. The result is `none` exactly when the Go
code panics in the root-span self-assignment. -/
def addTraceData (edgeMode : Bool) (parseTime : Str → Option Int)
    (ev : Event) : Option Event :=
  match dlookup ev.data kTraceId with
  | some (.vStr amznTraceID) =>
      Option.map
        (fun d2 => ⟨ev.timestamp, postProcess parseTime ev.timestamp amznTraceID d2⟩)
        (rootSpanFix (traceLoop edgeMode ev.data (splitChar ';' amznTraceID)))
  | _ => some ev

/-- The duration derivation as described by the amended claim C4: when the
response-time field is a string that parses to an instant strictly after
the event timestamp and the difference truncated to whole milliseconds is
nonzero, the duration is that millisecond count; otherwise (including a
positive difference below one millisecond) the request-processing-time
float is used. -/
def durationSpecC4 (parseTime : Str → Option Int) (ts : Int) (d : Data) :
    Rat :=
  match dlookup d kResponseTime with
  | some (.vStr s) =>
      match parseTime s with
      | some tm =>
          if tm - ts > 0 ∧ (tm - ts) / 1000000 ≠ 0 then
            (((tm - ts) / 1000000 : Int) : Rat)
          else reqProcFallback d
      | none => reqProcFallback d
  | _ => reqProcFallback d

/-- Outcome of one `Publish` call: the error returned to the caller (`none`
for a nil error) and whether deletion of the local file was attempted. -/
structure PublishOutcome where
  returned : Option Str
  removeAttempted : Bool
deriving DecidableEq, Repr

/-- The message of the cleanup error built by
`fmt.Errorf("Error cleaning up downloaded object %s: %s", filename, err)`. -/
def cleanupErrMsg (filename e : Str) : Str :=
  "Error cleaning up downloaded object ".data ++ filename ++ ": ".data ++ e

/-- Control flow of `HoneycombPublisher.Publish`. The outcomes of the two
external calls are parameters: `parseErr` is the error returned by
`ParseEvents` (which forwards parsed events down the pipeline as it runs)
and `removeErr` the error of `os.Remove` on the object's local file. -/
def Publish (parseErr removeErr : Option Str) (filename : Str) :
    PublishOutcome :=
  match parseErr with
  | some e => ⟨some e, false⟩
  | none =>
      match removeErr with
      | some e => ⟨some (cleanupErrMsg filename e), true⟩
      | none => ⟨none, true⟩

/-- UTF-8 encoding of one character, as Go `[]byte(s)` produces. -/
def utf8Bytes (c : Char) : List Nat :=
  if c.toNat < 128 then [c.toNat]
  else if c.toNat < 2048 then [192 + c.toNat / 64, 128 + c.toNat % 64]
  else if c.toNat < 65536 then
    [224 + c.toNat / 4096, 128 + c.toNat / 64 % 64, 128 + c.toNat % 64]
  else
    [240 + c.toNat / 262144, 128 + c.toNat / 4096 % 64,
     128 + c.toNat / 64 % 64, 128 + c.toNat % 64]

/-- The bytes of a Go string (UTF-8). -/
def strBytes : Str → List Nat
  | [] => []
  | c :: cs => utf8Bytes c ++ strBytes cs

/-- The standard base64 alphabet used by `base64.StdEncoding`. -/
def base64Alphabet : Str :=
  "ABCDEFGHIJKLMNOPQRSTUVWXYZabcdefghijklmnopqrstuvwxyz0123456789+/".data

/-- The base64 digit for a 6-bit group. -/
def b64char (n : Nat) : Char := base64Alphabet.getD n 'A'

/-- Standard padded base64 encoding (`base64.StdEncoding.EncodeToString`). -/
def base64Encode : List Nat → Str
  | [] => []
  | [a] => [b64char (a / 4), b64char (a % 4 * 16), '=', '=']
  | [a, b] =>
      [b64char (a / 4), b64char (a % 4 * 16 + b / 16), b64char (b % 16 * 4), '=']
  | a :: b :: c :: rest =>
      b64char (a / 4) :: b64char (a % 4 * 16 + b / 16) ::
        b64char (b % 16 * 4 + c / 64) :: b64char (c % 64) :: base64Encode rest

/-- `basicAuth` from the source: base64 of `username + ":" + password`. -/
def basicAuth (username password : Str) : Str :=
  base64Encode (strBytes (username ++ ':' :: password))

/-- Decimal rendering of an integer, as `strconv.FormatInt(n, 10)`. -/
def formatInt (n : Int) : Str := (toString n).data

/-- Model of `fmt.Sprintf("%v", ev.Data["elb"])`: an absent map entry prints
as the nil interface. The float branch is a representation-level
approximation of Go's shortest-decimal float formatting and no theorem
relies on it; every claim about this value assumes a string or absent
`elb` field. -/
def goSprintV : Option Value → Str
  | none => "<nil>".data
  | some (.vStr s) => s
  | some (.vInt n) => formatInt n
  | some (.vBool b) => (if b then "true" else "false").data
  | some (.vFloat q) => (toString q).data

/-- Structural JSON values, for stating the shape of the marshalled request
body (`Streams`/`Stream` in the source) without byte-level serialization. -/
inductive Json where
  | str : Str → Json
  | arr : List Json → Json
  | obj : List (Str × Json) → Json

/-- One outgoing HTTP request of the log-aggregation sink: method, URL, the
two headers the source sets, and the structural JSON body. -/
structure HttpRequest where
  method : Str
  url : Str
  contentType : Str
  authorization : Str
  body : Json

/-- One iteration of the `sendEventsToHoneycomb` delivery loop, from the
source. `ev` is the event as it enters the iteration after the external
`urlshaper` Shape call; sentinel cleanup is applied here (the
`addTraceData` call at this point in the source is commented out).
`marshalResult` is the outcome of the external `json.Marshal(ev.Data)`
call: on failure the code logs the error and continues with the nil byte
slice, whose string form is empty. Returns the request issued and whether
a marshal error was logged. -/
def sendOneEvent (edgeMode : Bool)
    (grafanaID grafanaEndpoint grafanaAPIKey environment : Str)
    (ev : Event) (marshalResult : Option Str) : HttpRequest × Bool :=
  let d := dropNegativeTimes ev.data
  let dataStr := match marshalResult with | some s => s | none => []
  (⟨"POST".data, grafanaEndpoint, "application/json".data,
    "Basic ".data ++ basicAuth grafanaID grafanaAPIKey,
    Json.obj [("streams".data, Json.arr [Json.obj
      [("stream".data, Json.obj
         [("environment".data, Json.str environment),
          ("service".data, Json.str "honeyaws".data),
          ("aws_elb".data, Json.str (goSprintV (dlookup d kElb)))]),
       ("values".data, Json.arr [Json.arr
         [Json.str (formatInt ev.timestamp), Json.str dataStr]])]])]⟩,
   marshalResult.isNone)

/-- The request described by the spec's words for the HTTP log-aggregation
endpoint: a POST with JSON content type, basic authentication from
`base64(id:key)`, and a body holding exactly one stream (labelled with the
environment, the literal service name and the load-balancer label) with
exactly one value pair of the decimal Unix-nanosecond timestamp and the
JSON-encoded event data. -/
def specLogRequest (grafanaID grafanaAPIKey environment elbLabel : Str)
    (tsNanos : Int) (eventJson : Str) (endpoint : Str) : HttpRequest :=
  ⟨"POST".data, endpoint, "application/json".data,
   "Basic ".data ++ base64Encode (strBytes (grafanaID ++ ':' :: grafanaAPIKey)),
   Json.obj [("streams".data, Json.arr [Json.obj
     [("stream".data, Json.obj
        [("environment".data, Json.str environment),
         ("service".data, Json.str "honeyaws".data),
         ("aws_elb".data, Json.str elbLabel)]),
      ("values".data, Json.arr [Json.arr
        [Json.str (formatInt tsNanos), Json.str eventJson]])]])]⟩

theorem dlookup_dset_self (d : Data) (k : Str) (v : Value) :
    dlookup (dset d k v) k = some v := by
  induction d with
  | nil => simp [dset, dlookup]
  | cons p rest ih =>
      obtain ⟨k', w⟩ := p
      by_cases h : k' = k
      · simp [dset, h, dlookup]
      · simp [dset, h, dlookup, ih]

theorem dlookup_dset_ne (d : Data) (k k' : Str) (v : Value) (h : k' ≠ k) :
    dlookup (dset d k v) k' = dlookup d k' := by
  induction d with
  | nil => simp [dset, dlookup, Ne.symm h]
  | cons p rest ih =>
      obtain ⟨k₀, w⟩ := p
      by_cases h0 : k₀ = k
      · subst h0
        simp [dset, dlookup, Ne.symm h]
      · simp [dset, h0, dlookup, ih]

theorem dlookup_derase_self (d : Data) (k : Str) :
    dlookup (derase d k) k = none := by
  induction d with
  | nil => simp [derase, dlookup]
  | cons p rest ih =>
      obtain ⟨k', w⟩ := p
      by_cases h : k' = k
      · simp [derase, h, ih]
      · simp [derase, h, dlookup, ih]

theorem dlookup_derase_ne (d : Data) (k k' : Str) (h : k' ≠ k) :
    dlookup (derase d k) k' = dlookup d k' := by
  induction d with
  | nil => simp [derase]
  | cons p rest ih =>
      obtain ⟨k₀, w⟩ := p
      by_cases h0 : k₀ = k
      · subst h0
        simp [derase, dlookup, Ne.symm h, ih]
      · simp [derase, h0, dlookup, ih]

theorem splitChar_ne_nil (sep : Char) (l : List Char) :
    splitChar sep l ≠ [] := by
  cases l with
  | nil => simp [splitChar]
  | cons c cs =>
      simp only [splitChar]
      cases splitChar sep cs with
      | nil => simp
      | cons g gs =>
          by_cases h : c = sep <;> simp [h]

theorem splitChar_not_mem (sep : Char) (a : List Char) (h : sep ∉ a) :
    splitChar sep a = [a] := by
  induction a with
  | nil => simp [splitChar]
  | cons c cs ih =>
      simp only [List.mem_cons, not_or] at h
      simp [splitChar, ih h.2, Ne.symm h.1]

theorem splitChar_append_cons (sep : Char) (a b : List Char) (h : sep ∉ a) :
    splitChar sep (a ++ sep :: b) = a :: splitChar sep b := by
  induction a with
  | nil =>
      simp only [List.nil_append, splitChar]
      cases hb : splitChar sep b with
      | nil => exact absurd hb (splitChar_ne_nil sep b)
      | cons g gs => simp
  | cons c cs ih =>
      simp only [List.mem_cons, not_or] at h
      have hih := ih h.2
      show (match splitChar sep (cs ++ sep :: b) with
            | [] => [[c]]
            | g :: gs => if c = sep then [] :: g :: gs else (c :: g) :: gs) =
          (c :: cs) :: splitChar sep b
      rw [hih]
      simp [Ne.symm h.1]

theorem splitChar_pair (sep : Char) (k v : List Char)
    (hk : sep ∉ k) (hv : sep ∉ v) :
    splitChar sep (k ++ sep :: v) = [k, v] := by
  rw [splitChar_append_cons sep k v hk, splitChar_not_mem sep v hv]

theorem dropField_eq (d : Data) (f : Str) :
    dropField d f =
      if negTime (dlookup d f) then dset (derase d f) kError (.vStr (errorMsg f))
      else d := by
  cases h : dlookup d f with
  | none => simp [dropField, negTime, h]
  | some t =>
      by_cases ht : tFloat t < 0 <;> simp [dropField, negTime, h, ht]

theorem dropField_dlookup (d : Data) (f k : Str) (hk : k ≠ kError) :
    dlookup (dropField d f) k =
      if k = f ∧ negTime (dlookup d f) then none else dlookup d k := by
  rw [dropField_eq]
  by_cases hneg : negTime (dlookup d f)
  · by_cases hkf : k = f
    · subst hkf
      simp [hneg, dlookup_dset_ne _ _ _ _ hk, dlookup_derase_self]
    · simp [hneg, hkf, dlookup_dset_ne _ _ _ _ hk, dlookup_derase_ne _ _ _ hkf]
  · simp [hneg]

theorem foldl_dropField_dlookup (fs : List Str) (d : Data) (k : Str)
    (hk : k ≠ kError) :
    dlookup (List.foldl dropField d fs) k =
      if k ∈ fs ∧ negTime (dlookup d k) then none else dlookup d k := by
  induction fs generalizing d with
  | nil => simp
  | cons f fs ih =>
      simp only [List.foldl_cons]
      rw [ih (dropField d f)]
      by_cases hkf : k = f
      · subst hkf
        rw [dropField_dlookup d k k hk]
        by_cases hneg : negTime (dlookup d k)
        · have h2 : (if k = k ∧ negTime (dlookup d k) then none else dlookup d k) =
              (none : Option Value) := by simp [hneg]
          rw [h2]
          have h3 : negTime (none : Option Value) = false := rfl
          simp [h3, hneg]
        · have h2 : (if k = k ∧ negTime (dlookup d k) then none else dlookup d k) =
              dlookup d k := by simp [hneg]
          rw [h2]
          simp [hneg]
      · rw [dropField_dlookup d f k hk]
        simp [hkf]

theorem foldl_dropField_id (fs : List Str) (d : Data)
    (h : ∀ f ∈ fs, negTime (dlookup d f) = false) :
    List.foldl dropField d fs = d := by
  induction fs with
  | nil => simp
  | cons f fs ih =>
      have hf : dropField d f = d := by
        rw [dropField_eq, h f (List.mem_cons_self f fs)]
        simp
      simp only [List.foldl_cons, hf]
      exact ih (fun g hg => h g (List.mem_cons_of_mem f hg))

theorem lastD_cons_of_ne_nil (f : Str) (l : List Str) (h : l ≠ []) :
    lastD (f :: l) = lastD l := by
  cases l with
  | nil => exact absurd rfl h
  | cons g fs => rfl

theorem foldl_dropField_error (fs : List Str) (d : Data)
    (hfs : kError ∉ fs) (hnd : fs.Nodup) :
    dlookup (List.foldl dropField d fs) kError =
      if fs.filter (fun f => negTime (dlookup d f)) = [] then
        dlookup d kError
      else
        some (.vStr (errorMsg
          (lastD (fs.filter (fun f => negTime (dlookup d f)))))) := by
  induction fs generalizing d with
  | nil => simp
  | cons f fs ih =>
      simp only [List.mem_cons, not_or] at hfs
      have hnd' : fs.Nodup := hnd.of_cons
      have hfnotin : f ∉ fs := (List.nodup_cons.mp hnd).1
      have hpres : ∀ g ∈ fs, dlookup (dropField d f) g = dlookup d g := by
        intro g hg
        have hgf : g ≠ f := fun he => hfnotin (he ▸ hg)
        have hgerr : g ≠ kError := by
          intro he
          exact hfs.2 (he ▸ hg)
        rw [dropField_dlookup d f g hgerr]
        simp [hgf]
      have hfilter : fs.filter (fun g => negTime (dlookup (dropField d f) g)) =
          fs.filter (fun g => negTime (dlookup d g)) := by
        apply List.filter_congr
        intro g hg
        rw [hpres g hg]
      simp only [List.foldl_cons]
      rw [ih (dropField d f) hfs.2 hnd', hfilter]
      by_cases hneg : negTime (dlookup d f)
      · have herr : dlookup (dropField d f) kError =
            some (.vStr (errorMsg f)) := by
          rw [dropField_eq, hneg]
          simp [dlookup_dset_self]
        have hcons : (f :: fs).filter (fun g => negTime (dlookup d g)) =
            f :: fs.filter (fun g => negTime (dlookup d g)) := by
          simp [List.filter_cons, hneg]
        rw [hcons]
        by_cases hemp : fs.filter (fun g => negTime (dlookup d g)) = []
        · rw [hemp]
          simp [herr, lastD]
        · rw [if_neg hemp, if_neg (by simp), lastD_cons_of_ne_nil f _ hemp]
      · have hid : dropField d f = d := by
          rw [dropField_eq]
          simp [hneg]
        rw [hid]
        have hcons : (f :: fs).filter (fun g => negTime (dlookup d g)) =
            fs.filter (fun g => negTime (dlookup d g)) := by
          simp [List.filter_cons, hneg]
        rw [hcons]

theorem processTraceField_of_pair (em : Bool) (acc : Data × Bool) (f : Str)
    (kv : Str × Str) (hp : pairOf f = some kv) :
    processTraceField em acc f = stepKV em acc kv := by
  unfold pairOf at hp
  unfold processTraceField
  cases hsp : splitChar '=' f with
  | nil =>
      rw [hsp] at hp
      simp at hp
  | cons a t =>
      cases t with
      | nil =>
          rw [hsp] at hp
          simp at hp
      | cons b t2 =>
          cases t2 with
          | nil =>
              rw [hsp] at hp
              simp only [Option.some.injEq] at hp
              subst hp
              rfl
          | cons c t3 =>
              rw [hsp] at hp
              simp at hp

theorem processTraceField_of_none (em : Bool) (acc : Data × Bool) (f : Str)
    (hp : pairOf f = none) :
    processTraceField em acc f = acc := by
  unfold pairOf at hp
  unfold processTraceField
  cases hsp : splitChar '=' f with
  | nil => rfl
  | cons a t =>
      cases t with
      | nil => rfl
      | cons b t2 =>
          cases t2 with
          | nil =>
              rw [hsp] at hp
              simp at hp
          | cons c t3 => rfl

theorem stepKV_preserves (em : Bool) (acc : Data × Bool) (kv : Str × Str)
    (k : Str) (hk : k ∉ writeKeysOf em kv.1) :
    dlookup (stepKV em acc kv).1 k = dlookup acc.1 k := by
  obtain ⟨kk, vv⟩ := kv
  by_cases h1 : kk = "Root".data
  · simp [writeKeysOf, h1] at hk
    simp [stepKV, h1]
    exact dlookup_dset_ne _ _ _ _ hk
  · by_cases h2 : kk = "Self".data
    · simp [writeKeysOf, h1, h2] at hk
      simp [stepKV, h1, h2]
      exact dlookup_dset_ne _ _ _ _ hk
    · by_cases h3 : kk = "Parent".data
      · cases em with
        | false =>
            simp [writeKeysOf, h1, h2, h3] at hk
            simp [stepKV, h1, h2, h3]
            exact dlookup_dset_ne _ _ _ _ hk
        | true => simp [stepKV, h1, h2, h3]
      · by_cases h4 : kk = "Sampled".data
        · simp [writeKeysOf, h1, h2, h3, h4] at hk
          simp [stepKV, h1, h2, h3, h4]
          exact dlookup_dset_ne _ _ _ _ hk
        · simp [writeKeysOf, h1, h2, h3, h4] at hk
          simp [stepKV, h1, h2, h3, h4]
          exact dlookup_dset_ne _ _ _ _ hk

theorem stepKV_bool (em : Bool) (acc : Data × Bool) (kv : Str × Str) :
    (stepKV em acc kv).2 = (acc.2 && !clearsRootKV em kv.1) := by
  obtain ⟨kk, vv⟩ := kv
  by_cases h1 : kk = "Root".data
  · simp +decide [stepKV, clearsRootKV, h1]
  · by_cases h2 : kk = "Self".data
    · simp [stepKV, clearsRootKV, h1, h2]
    · by_cases h3 : kk = "Parent".data
      · cases em with
        | false => simp [stepKV, clearsRootKV, h1, h2, h3]
        | true => simp [stepKV, clearsRootKV, h1, h2, h3]
      · by_cases h4 : kk = "Sampled".data
        · simp [stepKV, clearsRootKV, h1, h2, h3, h4]
        · simp [stepKV, clearsRootKV, h1, h2, h3, h4]

theorem foldl_processTraceField_preserves (em : Bool) (fields : List Str) :
    ∀ (acc : Data × Bool) (k : Str), k ∉ loopWrittenKeys em fields →
      dlookup (List.foldl (processTraceField em) acc fields).1 k =
        dlookup acc.1 k := by
  induction fields with
  | nil =>
      intro acc k _
      rfl
  | cons f fs ih =>
      intro acc k hk
      simp only [loopWrittenKeys, List.mem_append, not_or] at hk
      rw [List.foldl_cons, ih _ k hk.2]
      cases hp : pairOf f with
      | none => rw [processTraceField_of_none em acc f hp]
      | some kv =>
          rw [processTraceField_of_pair em acc f kv hp]
          refine stepKV_preserves em acc kv k ?_
          have hk1 := hk.1
          rw [hp] at hk1
          simpa using hk1

theorem foldl_processTraceField_bool (em : Bool) (fields : List Str) :
    ∀ acc : Data × Bool,
      (List.foldl (processTraceField em) acc fields).2 =
        (acc.2 && !fields.any (clearsRoot em)) := by
  induction fields with
  | nil =>
      intro acc
      simp
  | cons f fs ih =>
      intro acc
      rw [List.foldl_cons, ih]
      cases hp : pairOf f with
      | none =>
          rw [processTraceField_of_none em acc f hp]
          simp [List.any_cons, clearsRoot, hp]
      | some kv =>
          rw [processTraceField_of_pair em acc f kv hp, stepKV_bool]
          simp [List.any_cons, clearsRoot, hp, Bool.and_assoc]

theorem traceLoop_preserves (em : Bool) (d : Data) (fields : List Str)
    (k : Str) (hk : k ∉ loopWrittenKeys em fields) :
    dlookup (traceLoop em d fields).1 k = dlookup d k :=
  foldl_processTraceField_preserves em fields (d, true) k hk

theorem traceLoop_bool (em : Bool) (d : Data) (fields : List Str) :
    (traceLoop em d fields).2 = !fields.any (clearsRoot em) := by
  rw [traceLoop, foldl_processTraceField_bool]
  simp

theorem mem_parsedKeys (fields : List Str) (f : Str) (kv : Str × Str)
    (hf : f ∈ fields) (hp : pairOf f = some kv) :
    kv.1 ∈ parsedKeys fields := by
  induction fields with
  | nil => simp at hf
  | cons g fs ih =>
      rcases List.mem_cons.mp hf with he | hm
      · subst he
        simp [parsedKeys, hp]
      · simp only [parsedKeys, List.mem_append]
        exact Or.inr (ih hm)

theorem any_clearsRoot_eq_false (em : Bool) (fields : List Str)
    (hSelf : "Self".data ∉ parsedKeys fields)
    (hParent : em = true ∨ "Parent".data ∉ parsedKeys fields) :
    fields.any (clearsRoot em) = false := by
  rw [List.any_eq_false]
  intro f hf
  cases hp : pairOf f with
  | none => simp [clearsRoot, hp]
  | some kv =>
      have hk1 : kv.1 ∈ parsedKeys fields := mem_parsedKeys fields f kv hf hp
      have hkSelf : kv.1 ≠ "Self".data := fun he => hSelf (he ▸ hk1)
      rcases hParent with hem | hp2
      · subst hem
        simp [clearsRoot, hp, clearsRootKV, hkSelf]
      · have hkPar : kv.1 ≠ "Parent".data := fun he => hp2 (he ▸ hk1)
        simp [clearsRoot, hp, clearsRootKV, hkSelf, hkPar]

theorem not_mem_loopWrittenKeys (em : Bool) (fields : List Str) (k : Str)
    (h1 : k ≠ kTraceTraceId) (h2 : k ≠ kTraceSpanId) (h3 : k ≠ kTraceParentId)
    (h4 : k ≠ kSampled) (hpk : k ∉ parsedKeys fields) :
    k ∉ loopWrittenKeys em fields := by
  induction fields with
  | nil => simp [loopWrittenKeys]
  | cons f fs ih =>
      simp only [parsedKeys, List.mem_append, not_or] at hpk
      simp only [loopWrittenKeys, List.mem_append, not_or]
      refine ⟨?_, ih hpk.2⟩
      cases hp : pairOf f with
      | none => simp
      | some kv =>
          have hpk1 := hpk.1
          rw [hp] at hpk1
          simp only [Option.elim, List.mem_singleton] at hpk1
          simp only [Option.elim]
          unfold writeKeysOf
          by_cases e1 : kv.1 = "Root".data
          · simp [e1, h1]
          · by_cases e2 : kv.1 = "Self".data
            · simp [e1, e2, h2]
            · by_cases e3 : kv.1 = "Parent".data
              · cases em with
                | false => simp [e1, e2, e3, h3]
                | true => simp [e1, e2, e3]
              · by_cases e4 : kv.1 = "Sampled".data
                · simp [e1, e2, e3, e4, h4]
                · simp [e1, e2, e3, e4, hpk1]

theorem traceTraceId_not_written (em : Bool) (fields : List Str)
    (hroot : "Root".data ∉ parsedKeys fields)
    (hk : kTraceTraceId ∉ parsedKeys fields) :
    kTraceTraceId ∉ loopWrittenKeys em fields := by
  induction fields with
  | nil => simp [loopWrittenKeys]
  | cons f fs ih =>
      simp only [parsedKeys, List.mem_append, not_or] at hroot hk
      simp only [loopWrittenKeys, List.mem_append, not_or]
      refine ⟨?_, ih hroot.2 hk.2⟩
      cases hp : pairOf f with
      | none => simp
      | some kv =>
          have hr1 := hroot.1
          have hk1 := hk.1
          rw [hp] at hr1 hk1
          simp only [Option.elim, List.mem_singleton] at hr1 hk1
          simp only [Option.elim]
          unfold writeKeysOf
          by_cases e1 : kv.1 = "Root".data
          · exact absurd e1 (Ne.symm hr1)
          · by_cases e2 : kv.1 = "Self".data
            · simp +decide [e1, e2]
            · by_cases e3 : kv.1 = "Parent".data
              · cases em with
                | false => simp +decide [e1, e2, e3]
                | true => simp [e1, e2, e3]
              · by_cases e4 : kv.1 = "Sampled".data
                · simp +decide [e1, e2, e3, e4]
                · simp [e1, e2, e3, e4, hk1]

theorem traceParentId_not_written_edge (fields : List Str)
    (hk : kTraceParentId ∉ parsedKeys fields) :
    kTraceParentId ∉ loopWrittenKeys true fields := by
  induction fields with
  | nil => simp [loopWrittenKeys]
  | cons f fs ih =>
      simp only [parsedKeys, List.mem_append, not_or] at hk
      simp only [loopWrittenKeys, List.mem_append, not_or]
      refine ⟨?_, ih hk.2⟩
      cases hp : pairOf f with
      | none => simp
      | some kv =>
          have hk1 := hk.1
          rw [hp] at hk1
          simp only [Option.elim, List.mem_singleton] at hk1
          simp only [Option.elim]
          unfold writeKeysOf
          by_cases e1 : kv.1 = "Root".data
          · simp +decide [e1]
          · by_cases e2 : kv.1 = "Self".data
            · simp +decide [e1, e2]
            · by_cases e3 : kv.1 = "Parent".data
              · simp [e1, e2, e3]
              · by_cases e4 : kv.1 = "Sampled".data
                · simp +decide [e1, e2, e3, e4]
                · simp [e1, e2, e3, e4, hk1]

theorem attachDurationMs_preserves (p : Str → Option Int) (ts : Int)
    (d : Data) (k : Str) (hk : k ≠ kDurationMs) :
    dlookup (attachDurationMs p ts d) k = dlookup d k := by
  unfold attachDurationMs
  by_cases h : computeDurationMs p ts d > 0
  · rw [if_pos h]
    exact dlookup_dset_ne _ _ _ _ hk
  · rw [if_neg h]

theorem attachServiceName_preserves (d : Data) (k : Str)
    (hk : k ≠ kServiceName) :
    dlookup (attachServiceName d) k = dlookup d k := by
  unfold attachServiceName
  cases h : dlookup d kElb with
  | none => rfl
  | some v =>
      cases v with
      | vStr s => exact dlookup_dset_ne _ _ _ _ hk
      | vInt n => rfl
      | vFloat q => rfl
      | vBool b => rfl

theorem attachName_preserves (d : Data) (k : Str) (hk : k ≠ kName) :
    dlookup (attachName d) k = dlookup d k := by
  unfold attachName
  cases h : dlookup d kRequestPath with
  | none => rfl
  | some v =>
      cases v with
      | vStr s => exact dlookup_dset_ne _ _ _ _ hk
      | vInt n => rfl
      | vFloat q => rfl
      | vBool b => rfl

theorem finalizeHeader_preserves (a : Str) (d : Data) (k : Str)
    (h1 : k ≠ kTraceId) (h2 : k ≠ kReqHeader) :
    dlookup (finalizeHeader a d) k = dlookup d k := by
  unfold finalizeHeader
  rw [dlookup_dset_ne _ _ _ _ h2, dlookup_derase_ne _ _ _ h1]

theorem postProcess_preserves (p : Str → Option Int) (ts : Int) (a : Str)
    (d2 : Data) (k : Str) (h1 : k ≠ kDurationMs) (h2 : k ≠ kServiceName)
    (h3 : k ≠ kName) (h4 : k ≠ kTraceId) (h5 : k ≠ kReqHeader) :
    dlookup (postProcess p ts a d2) k = dlookup d2 k := by
  unfold postProcess
  rw [finalizeHeader_preserves _ _ _ h4 h5, attachName_preserves _ _ h3,
    attachServiceName_preserves _ _ h2, attachDurationMs_preserves _ _ _ _ h1]

theorem postProcess_traceId (p : Str → Option Int) (ts : Int) (a : Str)
    (d2 : Data) :
    dlookup (postProcess p ts a d2) kTraceId = none := by
  unfold postProcess finalizeHeader
  rw [dlookup_dset_ne _ _ _ _ (by decide), dlookup_derase_self]

theorem postProcess_reqHeader (p : Str → Option Int) (ts : Int) (a : Str)
    (d2 : Data) :
    dlookup (postProcess p ts a d2) kReqHeader = some (.vStr a) := by
  unfold postProcess finalizeHeader
  exact dlookup_dset_self _ _ _

theorem postProcess_durationMs (p : Str → Option Int) (ts : Int) (a : Str)
    (d2 : Data) (hd : dlookup d2 kDurationMs = none) :
    dlookup (postProcess p ts a d2) kDurationMs =
      if computeDurationMs p ts d2 > 0 then
        some (.vFloat (computeDurationMs p ts d2))
      else none := by
  unfold postProcess
  rw [finalizeHeader_preserves _ _ _ (by decide) (by decide),
    attachName_preserves _ _ (by decide),
    attachServiceName_preserves _ _ (by decide)]
  unfold attachDurationMs
  by_cases hpos : computeDurationMs p ts d2 > 0
  · rw [if_pos hpos, if_pos hpos]
    exact dlookup_dset_self _ _ _
  · rw [if_neg hpos, if_neg hpos]
    exact hd

theorem computeDurationMs_congr (p : Str → Option Int) (ts : Int)
    (dA dB : Data) (h1 : dlookup dA kResponseTime = dlookup dB kResponseTime)
    (h2 : dlookup dA kReqProcTime = dlookup dB kReqProcTime) :
    computeDurationMs p ts dA = computeDurationMs p ts dB := by
  unfold computeDurationMs reqProcFallback
  rw [h1, h2]

theorem computeDurationMs_eq_spec (p : Str → Option Int) (ts : Int)
    (d : Data) :
    computeDurationMs p ts d = durationSpecC4 p ts d := by
  unfold computeDurationMs durationSpecC4
  cases hr : dlookup d kResponseTime with
  | none => simp
  | some v =>
      cases v with
      | vStr s =>
          cases hp : p s with
          | none => simp [hp]
          | some tm =>
              by_cases hpos : tm - ts > 0
              · by_cases hms : (tm - ts) / 1000000 = 0
                · simp [hp, hpos, hms]
                · have hcast : ¬((((tm - ts) / 1000000 : Int) : Rat) = 0) := by
                    exact_mod_cast hms
                  simp [hp, hpos, hms, hcast]
              · simp [hp, hpos]
      | vInt n => simp
      | vFloat q => simp
      | vBool b => simp

theorem rootSpanFix_false (lr : Data × Bool) (h : lr.2 = false) :
    rootSpanFix lr = some lr.1 := by
  simp [rootSpanFix, h]

theorem rootSpanFix_true_str (lr : Data × Bool) (tid : Str) (h : lr.2 = true)
    (ht : dlookup lr.1 kTraceTraceId = some (.vStr tid)) :
    rootSpanFix lr = some (dset lr.1 kTraceSpanId (.vStr tid)) := by
  simp [rootSpanFix, h, ht]

theorem rootSpanFix_true_absent (lr : Data × Bool) (h : lr.2 = true)
    (ht : dlookup lr.1 kTraceTraceId = none) :
    rootSpanFix lr = none := by
  simp [rootSpanFix, h, ht]

theorem addTraceData_vStr (em : Bool) (p : Str → Option Int) (ev : Event)
    (h : Str) (hh : dlookup ev.data kTraceId = some (.vStr h)) :
    addTraceData em p ev =
      Option.map
        (fun d2 => ⟨ev.timestamp, postProcess p ev.timestamp h d2⟩)
        (rootSpanFix (traceLoop em ev.data (splitChar ';' h))) := by
  unfold addTraceData
  rw [hh]

theorem addTraceData_traceId_none (em : Bool) (p : Str → Option Int)
    (ev : Event) (hh : dlookup ev.data kTraceId = none) :
    addTraceData em p ev = some ev := by
  unfold addTraceData
  rw [hh]

theorem timeFields_ne_error : ∀ f ∈ timeFields, f ≠ kError := by decide

theorem timeFields_nodup : timeFields.Nodup := by decide

theorem dropNegativeTimes_dlookup (d : Data) (k : Str) (hk : k ≠ kError) :
    dlookup (dropNegativeTimes d) k =
      if k ∈ timeFields ∧ negTime (dlookup d k) then none else dlookup d k :=
  foldl_dropField_dlookup timeFields d k hk

theorem dropNegativeTimes_no_neg (d : Data) (f : Str) (hf : f ∈ timeFields) :
    negTime (dlookup (dropNegativeTimes d) f) = false := by
  rw [dropNegativeTimes_dlookup d f (timeFields_ne_error f hf)]
  by_cases hneg : negTime (dlookup d f)
  · simp [hf, hneg]
    rfl
  · simp [hf, hneg]

/-- C1: for every event data map and each of the four recognized latency
fields, sentinel cleanup deletes the field exactly when it is present with
a strictly negative numeric (int64 or float64) value, and the deleting
iteration writes an error message naming that field; fields that are
absent, non-numeric or non-negative are left unchanged, every key outside
the four fields (other than the error annotation) is left unchanged, and
after the pass the data never holds a negative numeric value in any of the
four fields. -/
theorem c1_sentinel_cleanup :
    (∀ (d : Data) (f : Str), f ∈ timeFields → negTime (dlookup d f) = true →
        dlookup (dropNegativeTimes d) f = none)
    ∧ (∀ (d : Data) (f : Str), f ∈ timeFields → negTime (dlookup d f) = false →
        dlookup (dropNegativeTimes d) f = dlookup d f)
    ∧ (∀ (d : Data) (k : Str), k ∉ timeFields → k ≠ kError →
        dlookup (dropNegativeTimes d) k = dlookup d k)
    ∧ (∀ (d : Data) (f : Str), f ∈ timeFields → negTime (dlookup d f) = true →
        dlookup (dropField d f) f = none ∧
          dlookup (dropField d f) kError = some (.vStr (errorMsg f)))
    ∧ (∀ (d : Data) (f : Str), negTime (dlookup d f) = false → dropField d f = d)
    ∧ (∀ (d : Data) (f : Str), f ∈ timeFields →
        negTime (dlookup (dropNegativeTimes d) f) = false) := by
  refine ⟨?_, ?_, ?_, ?_, ?_, ?_⟩
  · intro d f hf hneg
    rw [dropNegativeTimes_dlookup d f (timeFields_ne_error f hf)]
    simp [hf, hneg]
  · intro d f hf hneg
    rw [dropNegativeTimes_dlookup d f (timeFields_ne_error f hf)]
    simp [hneg]
  · intro d k hk hke
    rw [dropNegativeTimes_dlookup d k hke]
    simp [hk]
  · intro d f hf hneg
    have hfe : f ≠ kError := timeFields_ne_error f hf
    rw [dropField_eq, hneg]
    constructor
    · simp [dlookup_dset_ne _ _ _ _ hfe, dlookup_derase_self]
    · simp [dlookup_dset_self]
  · intro d f hneg
    rw [dropField_eq]
    simp [hneg]
  · intro d f hf
    exact dropNegativeTimes_no_neg d f hf

/-- C1 witness: the theorem applied to a data map where
backend_processing_time is a negative float, time_taken is a non-negative
integer, response_processing_time is absent, and elb is an unrelated
string field. -/
theorem c1_sentinel_cleanup_witness :
    dlookup (dropNegativeTimes
        [("backend_processing_time".data, Value.vFloat (-1)),
         ("time_taken".data, Value.vInt 3),
         ("elb".data, Value.vStr "lb".data)]) "backend_processing_time".data = none
    ∧ dlookup (dropNegativeTimes
        [("backend_processing_time".data, Value.vFloat (-1)),
         ("time_taken".data, Value.vInt 3),
         ("elb".data, Value.vStr "lb".data)]) "time_taken".data =
        dlookup [("backend_processing_time".data, Value.vFloat (-1)),
         ("time_taken".data, Value.vInt 3),
         ("elb".data, Value.vStr "lb".data)] "time_taken".data
    ∧ dlookup (dropNegativeTimes
        [("backend_processing_time".data, Value.vFloat (-1)),
         ("time_taken".data, Value.vInt 3),
         ("elb".data, Value.vStr "lb".data)]) "elb".data =
        dlookup [("backend_processing_time".data, Value.vFloat (-1)),
         ("time_taken".data, Value.vInt 3),
         ("elb".data, Value.vStr "lb".data)] "elb".data
    ∧ (dlookup (dropField
        [("backend_processing_time".data, Value.vFloat (-1))]
        "backend_processing_time".data) "backend_processing_time".data = none ∧
       dlookup (dropField
        [("backend_processing_time".data, Value.vFloat (-1))]
        "backend_processing_time".data) kError =
        some (.vStr (errorMsg "backend_processing_time".data)))
    ∧ dropField [("time_taken".data, Value.vInt 3)]
        "response_processing_time".data = [("time_taken".data, Value.vInt 3)]
    ∧ negTime (dlookup (dropNegativeTimes
        [("backend_processing_time".data, Value.vFloat (-1)),
         ("time_taken".data, Value.vInt 3),
         ("elb".data, Value.vStr "lb".data)]) "backend_processing_time".data) = false :=
  ⟨c1_sentinel_cleanup.1 _ _ (by decide) (by decide),
   c1_sentinel_cleanup.2.1 _ _ (by decide) (by decide),
   c1_sentinel_cleanup.2.2.1 _ _ (by decide) (by decide),
   c1_sentinel_cleanup.2.2.2.1 _ _ (by decide) (by decide),
   c1_sentinel_cleanup.2.2.2.2.1 _ _ (by decide),
   c1_sentinel_cleanup.2.2.2.2.2 _ _ (by decide)⟩

/-- C5: when two or more of the four latency fields hold negative numeric
values, the surviving error annotation names the last negative field in
the fixed iteration order (later fields overwrite earlier messages). -/
theorem c5_last_negative_wins (d : Data)
    (h2 : 2 ≤ (timeFields.filter (fun f => negTime (dlookup d f))).length) :
    dlookup (dropNegativeTimes d) kError =
      some (.vStr (errorMsg
        (lastD (timeFields.filter (fun f => negTime (dlookup d f)))))) := by
  have hne : timeFields.filter (fun f => negTime (dlookup d f)) ≠ [] := by
    intro he
    rw [he] at h2
    simp at h2
  rw [dropNegativeTimes,
    foldl_dropField_error timeFields d (by decide) timeFields_nodup, if_neg hne]

/-- C5 witness: response_processing_time and time_taken both negative; the
surviving message names time_taken, the later field in iteration order. -/
theorem c5_last_negative_wins_witness :
    dlookup (dropNegativeTimes
        [("response_processing_time".data, Value.vInt (-1)),
         ("time_taken".data, Value.vFloat (-2))]) kError =
      some (.vStr (errorMsg
        (lastD (timeFields.filter (fun f => negTime (dlookup
          [("response_processing_time".data, Value.vInt (-1)),
           ("time_taken".data, Value.vFloat (-2))] f)))))) :=
  c5_last_negative_wins _ (by decide)

/-- C6: the enricher is idempotent: a second sentinel-cleanup pass changes
nothing, and a second application of addTraceData (same edge mode) to an
already-enriched event is a no-op, because the first application deleted
the trace_id field. -/
theorem c6_enricher_idempotent :
    (∀ d : Data, dropNegativeTimes (dropNegativeTimes d) = dropNegativeTimes d)
    ∧ (∀ (em : Bool) (p : Str → Option Int) (ev ev' : Event),
        addTraceData em p ev = some ev' → addTraceData em p ev' = some ev') := by
  constructor
  · intro d
    exact foldl_dropField_id timeFields (dropNegativeTimes d)
      (fun f hf => dropNegativeTimes_no_neg d f hf)
  · intro em p ev ev' h1
    cases h0 : dlookup ev.data kTraceId with
    | none =>
        rw [addTraceData_traceId_none em p ev h0] at h1
        injection h1 with he
        subst he
        exact addTraceData_traceId_none em p ev h0
    | some v =>
        cases v with
        | vStr s =>
            rw [addTraceData_vStr em p ev s h0] at h1
            cases hrf : rootSpanFix (traceLoop em ev.data (splitChar ';' s)) with
            | none =>
                rw [hrf] at h1
                simp at h1
            | some d2 =>
                rw [hrf] at h1
                simp only [Option.map_some'] at h1
                injection h1 with he
                subst he
                apply addTraceData_traceId_none
                exact postProcess_traceId p ev.timestamp s d2
        | vInt n =>
            have he : addTraceData em p ev = some ev := by
              unfold addTraceData
              rw [h0]
            rw [he] at h1
            injection h1 with he2
            subst he2
            exact he
        | vFloat q =>
            have he : addTraceData em p ev = some ev := by
              unfold addTraceData
              rw [h0]
            rw [he] at h1
            injection h1 with he2
            subst he2
            exact he
        | vBool b =>
            have he : addTraceData em p ev = some ev := by
              unfold addTraceData
              rw [h0]
            rw [he] at h1
            injection h1 with he2
            subst he2
            exact he

/-- C6 witness: a second cleanup pass on an already-cleaned map changes
nothing, and addTraceData maps the already-enriched event of a Self-only
header to itself. -/
theorem c6_enricher_idempotent_witness :
    dropNegativeTimes (dropNegativeTimes
        [("backend_processing_time".data, Value.vFloat (-1))]) =
      dropNegativeTimes [("backend_processing_time".data, Value.vFloat (-1))]
    ∧ addTraceData false (fun _ => none)
        ⟨0, [(kTraceSpanId, Value.vStr "s".data),
             (kReqHeader, Value.vStr "Self=s".data)]⟩ =
      some ⟨0, [(kTraceSpanId, Value.vStr "s".data),
                (kReqHeader, Value.vStr "Self=s".data)]⟩ :=
  ⟨c6_enricher_idempotent.1 _,
   c6_enricher_idempotent.2 false (fun _ => none)
     ⟨0, [(kTraceId, Value.vStr "Self=s".data)]⟩
     ⟨0, [(kTraceSpanId, Value.vStr "s".data),
          (kReqHeader, Value.vStr "Self=s".data)]⟩ (by decide)⟩

/-- C7: Publish returns the parser's error without attempting deletion when
ParseEvents fails; on parser success it attempts deletion of the local
file, returns nil when deletion succeeds, and on deletion failure returns
an error that embeds the filename. -/
theorem c7_publish_error_flow :
    (∀ (e : Str) (removeErr : Option Str) (filename : Str),
        Publish (some e) removeErr filename = ⟨some e, false⟩)
    ∧ (∀ filename : Str, Publish none none filename = ⟨none, true⟩)
    ∧ (∀ filename e : Str,
        Publish none (some e) filename =
          ⟨some (cleanupErrMsg filename e), true⟩ ∧
        ∃ a b : Str, cleanupErrMsg filename e = a ++ filename ++ b) := by
  refine ⟨fun e re fn => rfl, fun fn => rfl, fun fn e => ⟨rfl, ?_⟩⟩
  exact ⟨"Error cleaning up downloaded object ".data, ": ".data ++ e, by
    simp [cleanupErrMsg, List.append_assoc]⟩

theorem rootSpanFix_some_inv (lr : Data × Bool) (d2 : Data)
    (h : rootSpanFix lr = some d2) :
    (lr.2 = false ∧ d2 = lr.1) ∨
      (lr.2 = true ∧ ∃ tid, dlookup lr.1 kTraceTraceId = some (.vStr tid) ∧
        d2 = dset lr.1 kTraceSpanId (.vStr tid)) := by
  unfold rootSpanFix at h
  by_cases hb : lr.2
  · rw [if_pos hb] at h
    right
    refine ⟨hb, ?_⟩
    cases ht : dlookup lr.1 kTraceTraceId with
    | none =>
        rw [ht] at h
        simp at h
    | some v =>
        cases v with
        | vStr tid =>
            rw [ht] at h
            injection h with he
            exact ⟨tid, rfl, he.symm⟩
        | vInt n =>
            rw [ht] at h
            simp at h
        | vFloat q =>
            rw [ht] at h
            simp at h
        | vBool b =>
            rw [ht] at h
            simp at h
  · rw [if_neg hb] at h
    left
    injection h with he
    exact ⟨by revert hb; cases lr.2 <;> simp, he.symm⟩

theorem addTraceData_some_inv (em : Bool) (p : Str → Option Int) (ev : Event)
    (h : Str) (ev' : Event) (hh : dlookup ev.data kTraceId = some (.vStr h))
    (happ : addTraceData em p ev = some ev') :
    ∃ d2, rootSpanFix (traceLoop em ev.data (splitChar ';' h)) = some d2 ∧
      ev' = ⟨ev.timestamp, postProcess p ev.timestamp h d2⟩ := by
  rw [addTraceData_vStr em p ev h hh] at happ
  cases hrf : rootSpanFix (traceLoop em ev.data (splitChar ';' h)) with
  | none =>
      rw [hrf] at happ
      simp at happ
  | some d2 =>
      rw [hrf] at happ
      simp only [Option.map_some'] at happ
      injection happ with he
      exact ⟨d2, rfl, he.symm⟩

/-- C9: addTraceData panics (modelled as `none`) on any event whose trace
header parses to key=value pairs containing no Root key, none that is
literally trace.trace_id, no Self key, and no Parent key taking effect
(either edge mode is on or no Parent key is present), provided the data
map has no pre-existing trace.trace_id entry: the root-span
self-assignment string type assertion hits an absent entry. -/
theorem c9_rootless_header_panics (em : Bool) (p : Str → Option Int)
    (ev : Event) (h : Str)
    (hh : dlookup ev.data kTraceId = some (.vStr h))
    (habsent : dlookup ev.data kTraceTraceId = none)
    (hroot : "Root".data ∉ parsedKeys (splitChar ';' h))
    (hkey : kTraceTraceId ∉ parsedKeys (splitChar ';' h))
    (hself : "Self".data ∉ parsedKeys (splitChar ';' h))
    (hparent : em = true ∨ "Parent".data ∉ parsedKeys (splitChar ';' h)) :
    addTraceData em p ev = none := by
  rw [addTraceData_vStr em p ev h hh]
  have hb : (traceLoop em ev.data (splitChar ';' h)).2 = true := by
    rw [traceLoop_bool, any_clearsRoot_eq_false em _ hself hparent]
    rfl
  have ht : dlookup (traceLoop em ev.data (splitChar ';' h)).1 kTraceTraceId =
      none := by
    rw [traceLoop_preserves em ev.data _ kTraceTraceId
      (traceTraceId_not_written em _ hroot hkey)]
    exact habsent
  rw [rootSpanFix_true_absent _ hb ht]
  rfl

/-- C9 witness: the event whose trace header is `Sampled=1` makes
addTraceData panic. -/
theorem c9_rootless_header_panics_witness :
    addTraceData false (fun _ => none)
      ⟨0, [(kTraceId, Value.vStr "Sampled=1".data)]⟩ = none :=
  c9_rootless_header_panics false (fun _ => none)
    ⟨0, [(kTraceId, Value.vStr "Sampled=1".data)]⟩ "Sampled=1".data
    (by decide) (by decide) (by decide) (by decide) (by decide)
    (Or.inr (by decide))

/-- C3 amended: with edge mode enabled, addTraceData leaves the
trace.parent_id entry unchanged provided no parsed header key is literally
trace.parent_id; in particular a Parent=P pair never produces one. With
edge mode disabled, a Root=R;Parent=P header sets trace.parent_id = P and
clears the root-span flag. -/
theorem c3_edge_mode_parent :
    (∀ (p : Str → Option Int) (ev : Event) (h : Str) (ev' : Event),
        dlookup ev.data kTraceId = some (.vStr h) →
        kTraceParentId ∉ parsedKeys (splitChar ';' h) →
        addTraceData true p ev = some ev' →
        dlookup ev'.data kTraceParentId = dlookup ev.data kTraceParentId)
    ∧ (∀ (p : Str → Option Int) (ev : Event) (R P : Str),
        ';' ∉ R → '=' ∉ R → ';' ∉ P → '=' ∉ P →
        dlookup ev.data kTraceId =
          some (.vStr (("Root".data ++ '=' :: R) ++ ';' ::
            ("Parent".data ++ '=' :: P))) →
        ∃ ev', addTraceData false p ev = some ev' ∧
          dlookup ev'.data kTraceParentId = some (.vStr P) ∧
          (traceLoop false ev.data (splitChar ';' (("Root".data ++ '=' :: R) ++
            ';' :: ("Parent".data ++ '=' :: P)))).2 = false) := by
  constructor
  · intro p ev h ev' hh hpk happ
    obtain ⟨d2, hrf, hev⟩ := addTraceData_some_inv true p ev h ev' hh happ
    subst hev
    have hd2 : dlookup d2 kTraceParentId =
        dlookup (traceLoop true ev.data (splitChar ';' h)).1 kTraceParentId := by
      rcases rootSpanFix_some_inv _ _ hrf with ⟨_, hd⟩ | ⟨_, tid, _, hd⟩
      · rw [hd]
      · rw [hd, dlookup_dset_ne _ _ _ _ (by decide)]
    show dlookup (postProcess p ev.timestamp h d2) kTraceParentId =
      dlookup ev.data kTraceParentId
    rw [postProcess_preserves _ _ _ _ _ (by decide) (by decide) (by decide)
      (by decide) (by decide), hd2,
      traceLoop_preserves true ev.data _ _ (traceParentId_not_written_edge _ hpk)]
  · intro p ev R P hR1 hR2 hP1 hP2 hh
    have hf1 : splitChar ';' (("Root".data ++ '=' :: R) ++ ';' ::
        ("Parent".data ++ '=' :: P)) =
        ["Root".data ++ '=' :: R, "Parent".data ++ '=' :: P] := by
      rw [splitChar_append_cons ';' _ _ (by
        simp only [List.mem_append, List.mem_cons, not_or]
        refine ⟨by decide, by decide, hR1⟩)]
      rw [splitChar_not_mem ';' _ (by
        simp only [List.mem_append, List.mem_cons, not_or]
        refine ⟨by decide, by decide, hP1⟩)]
    have hpair1 : pairOf ("Root".data ++ '=' :: R) = some ("Root".data, R) := by
      unfold pairOf
      rw [splitChar_pair '=' _ _ (by decide) hR2]
    have hpair2 : pairOf ("Parent".data ++ '=' :: P) =
        some ("Parent".data, P) := by
      unfold pairOf
      rw [splitChar_pair '=' _ _ (by decide) hP2]
    have hloop : traceLoop false ev.data ["Root".data ++ '=' :: R,
        "Parent".data ++ '=' :: P] =
        (dset (dset ev.data kTraceTraceId (.vStr R)) kTraceParentId (.vStr P),
          false) := by
      unfold traceLoop
      rw [List.foldl_cons, processTraceField_of_pair false _ _ _ hpair1,
        List.foldl_cons, processTraceField_of_pair false _ _ _ hpair2,
        List.foldl_nil]
      simp +decide [stepKV]
    refine ⟨⟨ev.timestamp, postProcess p ev.timestamp
      (("Root".data ++ '=' :: R) ++ ';' :: ("Parent".data ++ '=' :: P))
      (dset (dset ev.data kTraceTraceId (.vStr R)) kTraceParentId (.vStr P))⟩,
      ?_, ?_, ?_⟩
    · rw [addTraceData_vStr false p ev _ hh, hf1, hloop,
        rootSpanFix_false _ rfl]
      rfl
    · show dlookup (postProcess p ev.timestamp _ _) kTraceParentId = _
      rw [postProcess_preserves _ _ _ _ _ (by decide) (by decide) (by decide)
        (by decide) (by decide), dlookup_dset_self]
    · rw [hf1, hloop]

/-- C3 counterexample: with edge mode enabled, a header whose unrecognized
key is literally trace.parent_id is copied through, so addTraceData does
write a trace.parent_id field with edge mode on even though no Parent key
is present. -/
theorem c3_counterexample :
    dlookup
        [(kTraceId, Value.vStr "Root=r;trace.parent_id=p".data)]
        kTraceParentId = none
    ∧ "Parent".data ∉
        parsedKeys (splitChar ';' "Root=r;trace.parent_id=p".data)
    ∧ (addTraceData true (fun _ => none)
        ⟨0, [(kTraceId, Value.vStr "Root=r;trace.parent_id=p".data)]⟩).bind
        (fun e => dlookup e.data kTraceParentId) = some (.vStr "p".data) :=
  ⟨by decide, by decide, by decide⟩

/-- C3 witness: the amended theorem applied to a Root=r;Parent=q;Sampled=1
header under edge mode (the parent entry stays absent) and to a
Root=r;Parent=q header with edge mode off (parent id q is attached). -/
theorem c3_edge_mode_parent_witness :
    dlookup
        (⟨0, [(kTraceTraceId, Value.vStr "r".data),
              (kSampled, Value.vStr "1".data),
              (kTraceSpanId, Value.vStr "r".data),
              (kReqHeader, Value.vStr "Root=r;Parent=q;Sampled=1".data)]⟩ :
          Event).data kTraceParentId =
      dlookup
        (⟨0, [(kTraceId, Value.vStr "Root=r;Parent=q;Sampled=1".data)]⟩ :
          Event).data kTraceParentId
    ∧ (∃ ev', addTraceData false (fun _ => none)
        ⟨0, [(kTraceId, Value.vStr "Root=r;Parent=q".data)]⟩ = some ev' ∧
        dlookup ev'.data kTraceParentId = some (.vStr "q".data) ∧
        (traceLoop false
          [(kTraceId, Value.vStr "Root=r;Parent=q".data)]
          (splitChar ';' (("Root".data ++ '=' :: "r".data) ++ ';' ::
            ("Parent".data ++ '=' :: "q".data)))).2 = false) := by
  constructor
  · exact c3_edge_mode_parent.1 (fun _ => none)
      ⟨0, [(kTraceId, Value.vStr "Root=r;Parent=q;Sampled=1".data)]⟩
      "Root=r;Parent=q;Sampled=1".data
      ⟨0, [(kTraceTraceId, Value.vStr "r".data),
           (kSampled, Value.vStr "1".data),
           (kTraceSpanId, Value.vStr "r".data),
           (kReqHeader, Value.vStr "Root=r;Parent=q;Sampled=1".data)]⟩
      (by decide) (by decide) (by decide)
  · have hx := c3_edge_mode_parent.2 (fun _ => none)
      ⟨0, [(kTraceId, Value.vStr "Root=r;Parent=q".data)]⟩
      "r".data "q".data (by decide) (by decide) (by decide) (by decide)
      (by decide)
    exact hx

/-- C2: trace-header reconstruction. For headers whose parts are plain
key=value pairs: Root=R;Self=S yields trace id R, span id S, and clears
the root-span flag; Root=R alone yields trace id R and span id R
(root-span self-assignment); a Sampled=V pair is copied verbatim to the
sampled field; an unrecognized key K is copied through under its own name
(when K collides with none of the recognized keys nor any field the
enricher itself writes); and in every case the original trace_id field is
deleted and the raw header is preserved under
request.headers.x-amzn-trace-id. -/
theorem c2_trace_reconstruction :
    (∀ (em : Bool) (p : Str → Option Int) (ev : Event) (R S : Str),
        ';' ∉ R → '=' ∉ R → ';' ∉ S → '=' ∉ S →
        dlookup ev.data kTraceId =
          some (.vStr (("Root".data ++ '=' :: R) ++ ';' ::
            ("Self".data ++ '=' :: S))) →
        ∃ ev', addTraceData em p ev = some ev' ∧
          dlookup ev'.data kTraceTraceId = some (.vStr R) ∧
          dlookup ev'.data kTraceSpanId = some (.vStr S) ∧
          (traceLoop em ev.data (splitChar ';' (("Root".data ++ '=' :: R) ++
            ';' :: ("Self".data ++ '=' :: S)))).2 = false ∧
          dlookup ev'.data kTraceId = none ∧
          dlookup ev'.data kReqHeader =
            some (.vStr (("Root".data ++ '=' :: R) ++ ';' ::
              ("Self".data ++ '=' :: S))))
    ∧ (∀ (em : Bool) (p : Str → Option Int) (ev : Event) (R : Str),
        ';' ∉ R → '=' ∉ R →
        dlookup ev.data kTraceId = some (.vStr ("Root".data ++ '=' :: R)) →
        ∃ ev', addTraceData em p ev = some ev' ∧
          dlookup ev'.data kTraceTraceId = some (.vStr R) ∧
          dlookup ev'.data kTraceSpanId = some (.vStr R) ∧
          dlookup ev'.data kTraceId = none ∧
          dlookup ev'.data kReqHeader =
            some (.vStr ("Root".data ++ '=' :: R)))
    ∧ (∀ (em : Bool) (p : Str → Option Int) (ev : Event) (R V : Str),
        ';' ∉ R → '=' ∉ R → ';' ∉ V → '=' ∉ V →
        dlookup ev.data kTraceId =
          some (.vStr (("Root".data ++ '=' :: R) ++ ';' ::
            ("Sampled".data ++ '=' :: V))) →
        ∃ ev', addTraceData em p ev = some ev' ∧
          dlookup ev'.data kSampled = some (.vStr V))
    ∧ (∀ (em : Bool) (p : Str → Option Int) (ev : Event) (R K W : Str),
        ';' ∉ R → '=' ∉ R → ';' ∉ K → '=' ∉ K → ';' ∉ W → '=' ∉ W →
        K ≠ "Root".data → K ≠ "Self".data → K ≠ "Parent".data →
        K ≠ "Sampled".data → K ≠ kTraceTraceId → K ≠ kTraceSpanId →
        K ≠ kDurationMs → K ≠ kServiceName → K ≠ kName → K ≠ kTraceId →
        K ≠ kReqHeader →
        dlookup ev.data kTraceId =
          some (.vStr (("Root".data ++ '=' :: R) ++ ';' :: (K ++ '=' :: W))) →
        ∃ ev', addTraceData em p ev = some ev' ∧
          dlookup ev'.data K = some (.vStr W)) := by
  refine ⟨?_, ?_, ?_, ?_⟩
  · intro em p ev R S hR1 hR2 hS1 hS2 hh
    have hf1 : splitChar ';' (("Root".data ++ '=' :: R) ++ ';' ::
        ("Self".data ++ '=' :: S)) =
        ["Root".data ++ '=' :: R, "Self".data ++ '=' :: S] := by
      rw [splitChar_append_cons ';' _ _ (by
        simp only [List.mem_append, List.mem_cons, not_or]
        refine ⟨by decide, by decide, hR1⟩)]
      rw [splitChar_not_mem ';' _ (by
        simp only [List.mem_append, List.mem_cons, not_or]
        refine ⟨by decide, by decide, hS1⟩)]
    have hpair1 : pairOf ("Root".data ++ '=' :: R) = some ("Root".data, R) := by
      unfold pairOf
      rw [splitChar_pair '=' _ _ (by decide) hR2]
    have hpair2 : pairOf ("Self".data ++ '=' :: S) = some ("Self".data, S) := by
      unfold pairOf
      rw [splitChar_pair '=' _ _ (by decide) hS2]
    have hloop : traceLoop em ev.data ["Root".data ++ '=' :: R,
        "Self".data ++ '=' :: S] =
        (dset (dset ev.data kTraceTraceId (.vStr R)) kTraceSpanId (.vStr S),
          false) := by
      unfold traceLoop
      rw [List.foldl_cons, processTraceField_of_pair em _ _ _ hpair1,
        List.foldl_cons, processTraceField_of_pair em _ _ _ hpair2,
        List.foldl_nil]
      simp +decide [stepKV]
    refine ⟨⟨ev.timestamp, postProcess p ev.timestamp
      (("Root".data ++ '=' :: R) ++ ';' :: ("Self".data ++ '=' :: S))
      (dset (dset ev.data kTraceTraceId (.vStr R)) kTraceSpanId (.vStr S))⟩,
      ?_, ?_, ?_, ?_, ?_, ?_⟩
    · rw [addTraceData_vStr em p ev _ hh, hf1, hloop, rootSpanFix_false _ rfl]
      rfl
    · show dlookup (postProcess p ev.timestamp _ _) kTraceTraceId = _
      rw [postProcess_preserves _ _ _ _ _ (by decide) (by decide) (by decide)
        (by decide) (by decide),
        dlookup_dset_ne _ _ _ _ (by decide), dlookup_dset_self]
    · show dlookup (postProcess p ev.timestamp _ _) kTraceSpanId = _
      rw [postProcess_preserves _ _ _ _ _ (by decide) (by decide) (by decide)
        (by decide) (by decide), dlookup_dset_self]
    · rw [hf1, hloop]
    · exact postProcess_traceId _ _ _ _
    · exact postProcess_reqHeader _ _ _ _
  · intro em p ev R hR1 hR2 hh
    have hf1 : splitChar ';' ("Root".data ++ '=' :: R) =
        ["Root".data ++ '=' :: R] := by
      rw [splitChar_not_mem ';' _ (by
        simp only [List.mem_append, List.mem_cons, not_or]
        refine ⟨by decide, by decide, hR1⟩)]
    have hpair1 : pairOf ("Root".data ++ '=' :: R) = some ("Root".data, R) := by
      unfold pairOf
      rw [splitChar_pair '=' _ _ (by decide) hR2]
    have hloop : traceLoop em ev.data ["Root".data ++ '=' :: R] =
        (dset ev.data kTraceTraceId (.vStr R), true) := by
      unfold traceLoop
      rw [List.foldl_cons, processTraceField_of_pair em _ _ _ hpair1,
        List.foldl_nil]
      simp [stepKV]
    have hfix : rootSpanFix (traceLoop em ev.data
        (splitChar ';' ("Root".data ++ '=' :: R))) =
        some (dset (dset ev.data kTraceTraceId (.vStr R)) kTraceSpanId
          (.vStr R)) := by
      rw [hf1, hloop]
      exact rootSpanFix_true_str _ R rfl (dlookup_dset_self _ _ _)
    refine ⟨⟨ev.timestamp, postProcess p ev.timestamp
      ("Root".data ++ '=' :: R)
      (dset (dset ev.data kTraceTraceId (.vStr R)) kTraceSpanId (.vStr R))⟩,
      ?_, ?_, ?_, ?_, ?_⟩
    · rw [addTraceData_vStr em p ev _ hh, hfix]
      rfl
    · show dlookup (postProcess p ev.timestamp _ _) kTraceTraceId = _
      rw [postProcess_preserves _ _ _ _ _ (by decide) (by decide) (by decide)
        (by decide) (by decide),
        dlookup_dset_ne _ _ _ _ (by decide), dlookup_dset_self]
    · show dlookup (postProcess p ev.timestamp _ _) kTraceSpanId = _
      rw [postProcess_preserves _ _ _ _ _ (by decide) (by decide) (by decide)
        (by decide) (by decide), dlookup_dset_self]
    · exact postProcess_traceId _ _ _ _
    · exact postProcess_reqHeader _ _ _ _
  · intro em p ev R V hR1 hR2 hV1 hV2 hh
    have hf1 : splitChar ';' (("Root".data ++ '=' :: R) ++ ';' ::
        ("Sampled".data ++ '=' :: V)) =
        ["Root".data ++ '=' :: R, "Sampled".data ++ '=' :: V] := by
      rw [splitChar_append_cons ';' _ _ (by
        simp only [List.mem_append, List.mem_cons, not_or]
        refine ⟨by decide, by decide, hR1⟩)]
      rw [splitChar_not_mem ';' _ (by
        simp only [List.mem_append, List.mem_cons, not_or]
        refine ⟨by decide, by decide, hV1⟩)]
    have hpair1 : pairOf ("Root".data ++ '=' :: R) = some ("Root".data, R) := by
      unfold pairOf
      rw [splitChar_pair '=' _ _ (by decide) hR2]
    have hpair2 : pairOf ("Sampled".data ++ '=' :: V) =
        some ("Sampled".data, V) := by
      unfold pairOf
      rw [splitChar_pair '=' _ _ (by decide) hV2]
    have hloop : traceLoop em ev.data ["Root".data ++ '=' :: R,
        "Sampled".data ++ '=' :: V] =
        (dset (dset ev.data kTraceTraceId (.vStr R)) kSampled (.vStr V),
          true) := by
      unfold traceLoop
      rw [List.foldl_cons, processTraceField_of_pair em _ _ _ hpair1,
        List.foldl_cons, processTraceField_of_pair em _ _ _ hpair2,
        List.foldl_nil]
      simp +decide [stepKV]
    have hfix : rootSpanFix (traceLoop em ev.data
        (splitChar ';' (("Root".data ++ '=' :: R) ++ ';' ::
          ("Sampled".data ++ '=' :: V)))) =
        some (dset (dset (dset ev.data kTraceTraceId (.vStr R)) kSampled
          (.vStr V)) kTraceSpanId (.vStr R)) := by
      rw [hf1, hloop]
      refine rootSpanFix_true_str _ R rfl ?_
      rw [dlookup_dset_ne _ _ _ _ (by decide), dlookup_dset_self]
    refine ⟨⟨ev.timestamp, postProcess p ev.timestamp
      (("Root".data ++ '=' :: R) ++ ';' :: ("Sampled".data ++ '=' :: V))
      (dset (dset (dset ev.data kTraceTraceId (.vStr R)) kSampled (.vStr V))
        kTraceSpanId (.vStr R))⟩, ?_, ?_⟩
    · rw [addTraceData_vStr em p ev _ hh, hfix]
      rfl
    · show dlookup (postProcess p ev.timestamp _ _) kSampled = _
      rw [postProcess_preserves _ _ _ _ _ (by decide) (by decide) (by decide)
        (by decide) (by decide),
        dlookup_dset_ne _ _ _ _ (by decide), dlookup_dset_self]
  · intro em p ev R K W hR1 hR2 hK1 hK2 hW1 hW2 hk1 hk2 hk3 hk4 hk5 hk6 hk7
      hk8 hk9 hk10 hk11 hh
    have hf1 : splitChar ';' (("Root".data ++ '=' :: R) ++ ';' ::
        (K ++ '=' :: W)) = ["Root".data ++ '=' :: R, K ++ '=' :: W] := by
      rw [splitChar_append_cons ';' _ _ (by
        simp only [List.mem_append, List.mem_cons, not_or]
        refine ⟨by decide, by decide, hR1⟩)]
      rw [splitChar_not_mem ';' _ (by
        simp only [List.mem_append, List.mem_cons, not_or]
        exact ⟨hK1, by decide, hW1⟩)]
    have hpair1 : pairOf ("Root".data ++ '=' :: R) = some ("Root".data, R) := by
      unfold pairOf
      rw [splitChar_pair '=' _ _ (by decide) hR2]
    have hpair2 : pairOf (K ++ '=' :: W) = some (K, W) := by
      unfold pairOf
      rw [splitChar_pair '=' _ _ hK2 hW2]
    have hloop : traceLoop em ev.data ["Root".data ++ '=' :: R,
        K ++ '=' :: W] =
        (dset (dset ev.data kTraceTraceId (.vStr R)) K (.vStr W), true) := by
      unfold traceLoop
      rw [List.foldl_cons, processTraceField_of_pair em _ _ _ hpair1,
        List.foldl_cons, processTraceField_of_pair em _ _ _ hpair2,
        List.foldl_nil]
      simp +decide [stepKV, hk1, hk2, hk3, hk4]
    have hfix : rootSpanFix (traceLoop em ev.data
        (splitChar ';' (("Root".data ++ '=' :: R) ++ ';' :: (K ++ '=' :: W)))) =
        some (dset (dset (dset ev.data kTraceTraceId (.vStr R)) K (.vStr W))
          kTraceSpanId (.vStr R)) := by
      rw [hf1, hloop]
      refine rootSpanFix_true_str _ R rfl ?_
      rw [dlookup_dset_ne _ _ _ _ (Ne.symm hk5), dlookup_dset_self]
    refine ⟨⟨ev.timestamp, postProcess p ev.timestamp
      (("Root".data ++ '=' :: R) ++ ';' :: (K ++ '=' :: W))
      (dset (dset (dset ev.data kTraceTraceId (.vStr R)) K (.vStr W))
        kTraceSpanId (.vStr R))⟩, ?_, ?_⟩
    · rw [addTraceData_vStr em p ev _ hh, hfix]
      rfl
    · show dlookup (postProcess p ev.timestamp _ _) K = _
      rw [postProcess_preserves _ _ _ _ _ hk7 hk8 hk9 hk10 hk11,
        dlookup_dset_ne _ _ _ _ hk6, dlookup_dset_self]

/-- C2 witness: the four scenarios at concrete headers. -/
theorem c2_trace_reconstruction_witness :
    (∃ ev', addTraceData false (fun _ => none)
        ⟨0, [(kTraceId, Value.vStr "Root=1-abc;Self=2-def".data)]⟩ =
          some ev' ∧
        dlookup ev'.data kTraceTraceId = some (.vStr "1-abc".data) ∧
        dlookup ev'.data kTraceSpanId = some (.vStr "2-def".data) ∧
        (traceLoop false [(kTraceId, Value.vStr "Root=1-abc;Self=2-def".data)]
          (splitChar ';' (("Root".data ++ '=' :: "1-abc".data) ++ ';' ::
            ("Self".data ++ '=' :: "2-def".data)))).2 = false ∧
        dlookup ev'.data kTraceId = none ∧
        dlookup ev'.data kReqHeader =
          some (.vStr (("Root".data ++ '=' :: "1-abc".data) ++ ';' ::
            ("Self".data ++ '=' :: "2-def".data))))
    ∧ (∃ ev', addTraceData true (fun _ => none)
        ⟨0, [(kTraceId, Value.vStr "Root=1-abc".data)]⟩ = some ev' ∧
        dlookup ev'.data kTraceTraceId = some (.vStr "1-abc".data) ∧
        dlookup ev'.data kTraceSpanId = some (.vStr "1-abc".data) ∧
        dlookup ev'.data kTraceId = none ∧
        dlookup ev'.data kReqHeader =
          some (.vStr ("Root".data ++ '=' :: "1-abc".data)))
    ∧ (∃ ev', addTraceData false (fun _ => none)
        ⟨0, [(kTraceId, Value.vStr "Root=1-abc;Sampled=1".data)]⟩ =
          some ev' ∧
        dlookup ev'.data kSampled = some (.vStr "1".data))
    ∧ (∃ ev', addTraceData false (fun _ => none)
        ⟨0, [(kTraceId, Value.vStr "Root=1-abc;Extra=w".data)]⟩ = some ev' ∧
        dlookup ev'.data "Extra".data = some (.vStr "w".data)) :=
  ⟨c2_trace_reconstruction.1 false (fun _ => none) _ "1-abc".data "2-def".data
      (by decide) (by decide) (by decide) (by decide) (by decide),
   c2_trace_reconstruction.2.1 true (fun _ => none) _ "1-abc".data
      (by decide) (by decide) (by decide),
   c2_trace_reconstruction.2.2.1 false (fun _ => none) _ "1-abc".data "1".data
      (by decide) (by decide) (by decide) (by decide) (by decide),
   c2_trace_reconstruction.2.2.2 false (fun _ => none) _ "1-abc".data
      "Extra".data "w".data (by decide) (by decide) (by decide) (by decide)
      (by decide) (by decide) (by decide) (by decide) (by decide) (by decide)
      (by decide) (by decide) (by decide) (by decide) (by decide) (by decide)
      (by decide) (by decide)⟩

/-- C4 amended: for an event whose trace header is processed (and whose
header pairs do not themselves write the response-time,
request-processing-time or duration fields, with no pre-existing
duration_ms entry), the attached duration follows `durationSpecC4`: the
response-time difference truncated to whole milliseconds when the parse
succeeds, the instant is strictly after the timestamp and that truncation
is nonzero; otherwise (including positive sub-millisecond differences) the
request-processing-time float; and duration_ms is present in the output
exactly when the resulting value is strictly positive. -/
theorem c4_duration_derivation (em : Bool) (p : Str → Option Int)
    (ev : Event) (h : Str) (ev' : Event)
    (hh : dlookup ev.data kTraceId = some (.vStr h))
    (hresp : kResponseTime ∉ loopWrittenKeys em (splitChar ';' h))
    (hrpt : kReqProcTime ∉ loopWrittenKeys em (splitChar ';' h))
    (hdur : kDurationMs ∉ loopWrittenKeys em (splitChar ';' h))
    (hd0 : dlookup ev.data kDurationMs = none)
    (happ : addTraceData em p ev = some ev') :
    dlookup ev'.data kDurationMs =
      (if durationSpecC4 p ev.timestamp ev.data > 0 then
        some (.vFloat (durationSpecC4 p ev.timestamp ev.data))
      else none) := by
  obtain ⟨d2, hrf, hev⟩ := addTraceData_some_inv em p ev h ev' hh happ
  subst hev
  have hkeys : ∀ k, k ∉ loopWrittenKeys em (splitChar ';' h) →
      k ≠ kTraceSpanId → dlookup d2 k = dlookup ev.data k := by
    intro k hk hks
    rcases rootSpanFix_some_inv _ _ hrf with ⟨_, hd⟩ | ⟨_, tid, _, hd⟩
    · rw [hd, traceLoop_preserves em ev.data _ k hk]
    · rw [hd, dlookup_dset_ne _ _ _ _ hks,
        traceLoop_preserves em ev.data _ k hk]
  have h1 : dlookup d2 kResponseTime = dlookup ev.data kResponseTime :=
    hkeys _ hresp (by decide)
  have h2 : dlookup d2 kReqProcTime = dlookup ev.data kReqProcTime :=
    hkeys _ hrpt (by decide)
  have h3 : dlookup d2 kDurationMs = none := by
    rw [hkeys _ hdur (by decide)]
    exact hd0
  show dlookup (postProcess p ev.timestamp h d2) kDurationMs = _
  rw [postProcess_durationMs p ev.timestamp h d2 h3,
    computeDurationMs_congr p ev.timestamp d2 ev.data h1 h2,
    computeDurationMs_eq_spec]

/-- C4 witness: a Self-only header with request_processing_time 5.0 and no
parseable response time yields duration_ms 5. -/
theorem c4_duration_derivation_witness :
    dlookup
      (⟨0, [(kReqProcTime, Value.vFloat 5),
            (kTraceSpanId, Value.vStr "s".data),
            (kDurationMs, Value.vFloat 5),
            (kReqHeader, Value.vStr "Self=s".data)]⟩ : Event).data
      kDurationMs =
      (if durationSpecC4 (fun _ => none) 0
          [(kTraceId, Value.vStr "Self=s".data),
           (kReqProcTime, Value.vFloat 5)] > 0 then
        some (.vFloat (durationSpecC4 (fun _ => none) 0
          [(kTraceId, Value.vStr "Self=s".data),
           (kReqProcTime, Value.vFloat 5)]))
      else none) :=
  c4_duration_derivation false (fun _ => none)
    ⟨0, [(kTraceId, Value.vStr "Self=s".data),
         (kReqProcTime, Value.vFloat 5)]⟩ "Self=s".data
    ⟨0, [(kReqProcTime, Value.vFloat 5),
         (kTraceSpanId, Value.vStr "s".data),
         (kDurationMs, Value.vFloat 5),
         (kReqHeader, Value.vStr "Self=s".data)]⟩
    (by decide) (by decide) (by decide) (by decide) (by decide) (by decide)

/-- C4 counterexample: a response time half a millisecond after the event
timestamp parses and is strictly after it, so the claim as stated predicts
the duration is that difference in milliseconds (zero, hence no field
attached, and in no reading equal to 5); the code instead truncates the
difference to zero milliseconds, falls back to request_processing_time and
attaches duration_ms = 5. -/
theorem c4_counterexample :
    (500000 - 0 : Int) > 0
    ∧ (500000 - 0 : Int) / 1000000 = 0
    ∧ ((if ((500000 - 0 : Int) / 1000000 : Int) > 0 then
          some (Value.vFloat (((500000 - 0 : Int) / 1000000 : Int) : Rat))
        else none) : Option Value) = none
    ∧ (addTraceData false
        (fun s => if s = "resp".data then some (500000 : Int) else none)
        ⟨0, [(kTraceId, Value.vStr "Self=x".data),
             (kResponseTime, Value.vStr "resp".data),
             (kReqProcTime, Value.vFloat 5)]⟩).bind
        (fun e => dlookup e.data kDurationMs) = some (.vFloat 5) :=
  ⟨by decide, by decide, by decide, by decide⟩

/-- C8: the request of the HTTP log-aggregation sink matches the spec's
envelope exactly: a POST to the configured endpoint with JSON content
type, Authorization of Basic followed by base64(id:key), and a body with
exactly one stream labelled by environment, the literal service name
honeyaws and the elb label, carrying exactly one value pair of the decimal
Unix-nanosecond timestamp and the JSON-encoded event data. -/
theorem c8_http_sink_request_shape (em : Bool)
    (grafanaID grafanaEndpoint grafanaAPIKey environment : Str)
    (ev : Event) (s : Str) (L : Str)
    (hL : dlookup (dropNegativeTimes ev.data) kElb = some (.vStr L)) :
    (sendOneEvent em grafanaID grafanaEndpoint grafanaAPIKey environment ev
        (some s)).1 =
      specLogRequest grafanaID grafanaAPIKey environment L ev.timestamp s
        grafanaEndpoint := by
  unfold sendOneEvent specLogRequest basicAuth
  dsimp only
  rw [hL]
  rfl

/-- C8 witness: the concrete event with elb field my-lb. -/
theorem c8_http_sink_request_shape_witness :
    (sendOneEvent false "id".data "ep".data "key".data "dev".data
        ⟨0, [(kElb, Value.vStr "my-lb".data)]⟩ (some "x".data)).1 =
      specLogRequest "id".data "key".data "dev".data "my-lb".data 0 "x".data
        "ep".data :=
  c8_http_sink_request_shape false "id".data "ep".data "key".data "dev".data
    ⟨0, [(kElb, Value.vStr "my-lb".data)]⟩ "x".data "my-lb".data (by decide)

/-- C10: when the JSON marshal of the event data fails, the delivery loop
logs the error and still issues the POST, with the body's single value
entry carrying the string form of the nil byte slice, that is the empty
string, and every other part of the request unchanged. -/
theorem c10_marshal_failure_still_posts (em : Bool)
    (grafanaID grafanaEndpoint grafanaAPIKey environment : Str) (ev : Event) :
    (sendOneEvent em grafanaID grafanaEndpoint grafanaAPIKey environment ev
        none).2 = true ∧
    (sendOneEvent em grafanaID grafanaEndpoint grafanaAPIKey environment ev
        none).1 =
      specLogRequest grafanaID grafanaAPIKey environment
        (goSprintV (dlookup (dropNegativeTimes ev.data) kElb)) ev.timestamp []
        grafanaEndpoint :=
  ⟨rfl, rfl⟩
